import Mathlib

/-!
# Sensor control model of the ov64a40 camera helper

A shallow embedding of `src/ipa/rpi/cam_helper/cam_helper_ov64a40.cpp`
(class `CamHelperOv64a40`) and of the delay bookkeeping and the frame counter
that the documentation of `IPAActiveState::sensor` and
`IPAActiveState::frameCount` in `src/ipa/rkisp1/ipa_context.cpp` refers to.

Numeric conventions.

* A finite `double` is a rational number.  The gains that `gainCode` takes and
  `gain` returns, and the constants that `getModeSensitivity` returns, are
  finite and are given as values of `ℚ`.  The only floating-point operations
  of the helper are `gain * 128.0` and `code / 128.0`: scaling by a power of
  two changes the exponent only, so both are exact on the values considered
  here (no rounding, and no overflow below `2 ^ 32`).
* The scale factors of a capture mode are compared only, and any `double` can
  be stored there: they are values of `Double`, which has the finite values,
  the two infinities and NaN, compared as IEEE 754 compares them (every
  comparison with NaN is false).
* `uint32_t` is a natural number below `2 ^ 32`, `uint8_t` one below `2 ^ 8`,
  `int` an integer.
* `static_cast<uint32_t>(double)` discards the fractional part and has no
  defined result when the truncated value is not a `uint32_t`; the embedding
  returns `none` there.
-/

namespace RPiController

/-- The values of the C++ type `double`: the finite ones (a rational number
each), the two infinities and NaN. -/
inductive Double where
  | finite (q : ℚ)
  | posInf
  | negInf
  | nan
  deriving DecidableEq

namespace Double

/-- The comparison `x <= y` of two `double` values: false when either is NaN. -/
def le : Double → Double → Bool
  | nan, _ => false
  | _, nan => false
  | negInf, _ => true
  | _, posInf => true
  | finite a, finite b => decide (a ≤ b)
  | finite _, negInf => false
  | posInf, finite _ => false
  | posInf, negInf => false

/-- The comparison `x < y` of two `double` values: false when either is NaN. -/
def lt : Double → Double → Bool
  | nan, _ => false
  | _, nan => false
  | posInf, _ => false
  | _, negInf => false
  | finite a, finite b => decide (a < b)
  | finite _, posInf => true
  | negInf, finite _ => true
  | negInf, posInf => true

instance : LE Double := ⟨fun x y => le x y = true⟩

instance : LT Double := ⟨fun x y => lt x y = true⟩

instance (x y : Double) : Decidable (x ≤ y) :=
  inferInstanceAs (Decidable (le x y = true))

instance (x y : Double) : Decidable (x < y) :=
  inferInstanceAs (Decidable (lt x y = true))

/-- An integer literal used where a `double` is expected converts to the
finite value of that integer. -/
instance (n : Nat) : OfNat Double n := ⟨finite (n : ℚ)⟩

end Double

/-- The fields of `CameraMode` (declared in `camera_mode.h`) that describe the
binning and the scaling of a capture mode.  `binX`, `binY` are `uint8_t`
counts, `scaleX`, `scaleY` are `double` factors; `width`, `height` stand for
the remaining fields, which the helper never reads. -/
structure CameraMode where
  width : Nat
  height : Nat
  binX : Nat
  binY : Nat
  scaleX : Double
  scaleY : Double
  deriving DecidableEq

/-- The receiver of the member functions: an object of class
`CamHelperOv64a40`.  Its constructor hands `frameIntegrationDiff` to the base
class `CamHelper`, which also remembers the capture mode that is active. -/
structure CamHelperOv64a40 where
  frameIntegrationDiff_ : Int
  mode_ : CameraMode
  deriving DecidableEq

namespace CamHelperOv64a40

/-- The class constant `frameIntegrationDiff = 4`. -/
def frameIntegrationDiff : Int := 4

/-- A helper as the constructor `CamHelperOv64a40()` builds it (the base class
receives `frameIntegrationDiff`), with `mode` as its active capture mode. -/
def helperWithMode (mode : CameraMode) : CamHelperOv64a40 :=
  { frameIntegrationDiff_ := frameIntegrationDiff, mode_ := mode }

/-- The conversion `static_cast<uint32_t>(x)` of a `double`: truncation toward
zero, defined only when the truncated value lies in `[0, 2 ^ 32)`. -/
def castU32 (x : ℚ) : Option Nat :=
  let t : Int := if 0 ≤ x then ⌊x⌋ else ⌈x⌉
  if 0 ≤ t ∧ t < 2 ^ 32 then some t.toNat else none

/-- `CamHelperOv64a40::gainCode`: `static_cast<uint32_t>(gain * 128.0)`. -/
def gainCode (_self : CamHelperOv64a40) (gain : ℚ) : Option Nat :=
  castU32 (gain * 128)

/-- `CamHelperOv64a40::gain`: `static_cast<double>(gainCode) / 128.0`. -/
def gain (_self : CamHelperOv64a40) (gainCode : Nat) : ℚ :=
  (gainCode : ℚ) / 128

/-- The four `int` variables that `getDelays` receives by reference. -/
structure DelayVars where
  exposureDelay : Int
  gainDelay : Int
  vblankDelay : Int
  hblankDelay : Int
  deriving DecidableEq

/-- `CamHelperOv64a40::getDelays`: four assignments, in source order, to the
variables passed by reference. -/
def getDelays (_self : CamHelperOv64a40) (v : DelayVars) : DelayVars :=
  let v := { v with exposureDelay := 2 }
  let v := { v with gainDelay := 2 }
  let v := { v with vblankDelay := 2 }
  let v := { v with hblankDelay := 2 }
  v

/-- `CamHelperOv64a40::getModeSensitivity`. -/
def getModeSensitivity (_self : CamHelperOv64a40) (mode : CameraMode) : ℚ :=
  if mode.binX ≥ 2 ∧ mode.scaleX ≥ 4 then
    4
  else if mode.binX ≥ 2 ∧ mode.scaleX ≥ 2 then
    2
  else
    1

end CamHelperOv64a40

end RPiController

/-! ## Delay-compensated scheduling

`ipa_context.cpp` documents `IPAActiveState::sensor` as the *effective* sensor
values (exposure in lines, analogue gain) but holds no code; the bookkeeping
that moves a requested value into that sub-record lives outside the two source
files.  The definitions of this section follow sections 3, 4.3 and 4.4 of the
specification. -/

namespace DelayScheduling

/-- Modelled from the spec: the per-frame record of section 3 (FrameContext),
absent from the source: a control value tagged with the frame index at which
it becomes effective. -/
structure Scheduled (α : Type) where
  frame : Nat
  value : α

/-- Modelled from the spec: the bookkeeping of one delayed field, absent from
the source: the value of the effective sensor sub-record
(`IPAActiveState::sensor`) and the changes requested but not yet effective, in
the order of the requests. -/
structure FieldState (α : Type) where
  effective : α
  pending : List (Scheduled α)

/-- Modelled from the spec: section 4.3 step 3, absent from the source: a value
written while processing frame `frame` for a field with delay `delay` is tagged
with the frame index `frame + delay`; the effective value is not touched. -/
def write {α : Type} (s : FieldState α) (frame delay : Nat) (value : α) : FieldState α :=
  { s with pending := s.pending ++ [{ frame := frame + delay, value := value }] }

/-- Modelled from the spec: section 4.4, absent from the source: on reaching
frame `frame` every scheduled change whose target frame index is reached is
applied to the effective value, in the order of the requests, and leaves the
pending changes; the others stay pending. -/
def reach {α : Type} (s : FieldState α) (frame : Nat) : FieldState α :=
  { effective :=
      (s.pending.filter (fun p => decide (p.frame ≤ frame))).foldl (fun _ p => p.value)
        s.effective
    pending := s.pending.filter (fun p => decide (frame < p.frame)) }

/-- Modelled from the spec: the frame-index bookkeeping of section 5, absent
from the source: the state on reaching the frames `frame`, `frame + 1`, ...,
`frame + k` one after the other. -/
def advance {α : Type} (s : FieldState α) (frame : Nat) : Nat → FieldState α
  | 0 => reach s frame
  | k + 1 => reach (advance s frame k) (frame + (k + 1))

/-- Modelled from the spec: the effective value seen at frame `frame + k` by a
session whose state while processing frame `frame` is `s`. -/
def effectiveAt {α : Type} (s : FieldState α) (frame k : Nat) : α :=
  (advance s frame k).effective

end DelayScheduling

/-! ## The frame counter of the active state

`ipa_context.cpp` documents `IPAActiveState::frameCount` (reset to 0 when the
IPA module is configured, incremented for each request being queued, after
calling `Algorithm::prepare()` of all algorithms); the functions that do so
live outside the two source files.  The definitions of this section follow
that documentation and sections 3 and 4.3 of the specification. -/

namespace libcamera.ipa.rkisp1

/-- Modelled from the spec: `IPAActiveState` (declared in `ipa_context.h`,
absent from the source): the sub-records owned by the algorithms, kept abstract
as one value of type `σ`, and the counter `frameCount` owned by the IPA module,
an unsigned counter for which no width is stated. -/
structure IPAActiveState (σ : Type) where
  algorithms : σ
  frameCount : Nat

/-- Modelled from the spec: the prepare step of an algorithm (section 4.3 step
1 and section 9), absent from the source: it may read every field of the active
state and returns only the sub-records that algorithms own. -/
structure Algorithm (σ : Type) where
  prepare : IPAActiveState σ → σ

/-- Modelled from the spec: configuration of the IPA module, absent from the
source: the active state is created with the default sub-records and the
counter is reset to 0. -/
def configure {σ : Type} (defaults : σ) : IPAActiveState σ :=
  { algorithms := defaults, frameCount := 0 }

/-- Modelled from the spec: section 4.3 step 1, absent from the source: the
prepare step of every algorithm, in the fixed order of the session. -/
def prepareAll {σ : Type} (algos : List (Algorithm σ)) (s : IPAActiveState σ) :
    IPAActiveState σ :=
  algos.foldl (fun st a => { st with algorithms := a.prepare st }) s

/-- Modelled from the spec: section 4.3 steps 1 and 2, absent from the source:
a queued request runs the prepare step of all algorithms and then increments
`frameCount` once. -/
def queueRequest {σ : Type} (algos : List (Algorithm σ)) (s : IPAActiveState σ) :
    IPAActiveState σ :=
  let s := prepareAll algos s
  { s with frameCount := s.frameCount + 1 }

/-- Modelled from the spec: the active state of a session after configuration
and `n` queued requests. -/
def session {σ : Type} (algos : List (Algorithm σ)) (defaults : σ) : Nat → IPAActiveState σ
  | 0 => configure defaults
  | n + 1 => queueRequest algos (session algos defaults n)

end libcamera.ipa.rkisp1

namespace RPiController

namespace Double

/-! ## Auxiliary facts about the comparison of `double` values -/

/-- The relation `≤` on `Double` is the comparison `le`. -/
theorem le_iff (x y : Double) : x ≤ y ↔ le x y = true := Iff.rfl

/-- The relation `<` on `Double` is the comparison `lt`. -/
theorem lt_iff (x y : Double) : x < y ↔ lt x y = true := Iff.rfl

/-- The comparison `<=` is transitive (a NaN makes a hypothesis false). -/
theorem le_trans_double {a b c : Double} (hab : a ≤ b) (hbc : b ≤ c) : a ≤ c := by
  rw [le_iff] at *
  cases a <;> cases b <;> cases c <;> simp_all [le]
  exact le_trans hab hbc

/-- The literal 2 is at most the literal 4. -/
theorem two_le_four : (2 : Double) ≤ 4 := by
  decide

/-- A value below another is not at least that other. -/
theorem not_le_of_lt_double {a b : Double} (h : a < b) : ¬ b ≤ a := by
  rw [le_iff]
  rw [lt_iff] at h
  cases a <;> cases b <;> simp_all [lt, le]

/-- A value is not at least a finite bound exactly when it is below the bound
or is NaN. -/
theorem not_le_finite_iff (q : ℚ) (x : Double) :
    ¬ finite q ≤ x ↔ x < finite q ∨ x = nan := by
  rw [le_iff, lt_iff]
  cases x <;> simp [lt, le]

/-- A value is not at least 2 exactly when it is below 2 or is NaN. -/
theorem not_two_le_iff (x : Double) : ¬ (2 : Double) ≤ x ↔ x < 2 ∨ x = nan :=
  not_le_finite_iff _ x

/-- A value that is at least 4 is at least 2. -/
theorem two_le_of_four_le {x : Double} (h : (4 : Double) ≤ x) : (2 : Double) ≤ x :=
  le_trans_double two_le_four h

end Double

end RPiController

namespace RPiController

namespace CamHelperOv64a40

/-! ## Auxiliary facts about the gain encoding -/

/-- On a non-negative argument whose truncation fits 32 bits the cast is the
floor. -/
theorem castU32_of_nonneg (x : ℚ) (h0 : 0 ≤ x) (h1 : x < 2 ^ 32) :
    castU32 x = some ⌊x⌋.toNat := by
  have hf0 : (0 : Int) ≤ ⌊x⌋ := Int.floor_nonneg.mpr h0
  have hf1 : ⌊x⌋ < (2 : Int) ^ 32 := by
    have : ((⌊x⌋ : Int) : ℚ) < ((2 ^ 32 : Int) : ℚ) := by
      have := Int.floor_le x
      push_cast
      linarith
    exact_mod_cast this
  simp only [castU32, if_pos h0]
  rw [if_pos ⟨hf0, hf1⟩]

/-- In the representable range `gainCode` is the floor of `128 * gain`. -/
theorem gainCode_eq_floor (self : CamHelperOv64a40) (g : ℚ) (h0 : 0 ≤ g)
    (h1 : 128 * g < 2 ^ 32) : gainCode self g = some ⌊g * 128⌋.toNat := by
  unfold gainCode
  apply castU32_of_nonneg
  · positivity
  · linarith

/-- The floor of a non-negative rational, read back as a rational. -/
theorem floor_toNat_cast (x : ℚ) (h0 : 0 ≤ x) : ((⌊x⌋.toNat : Nat) : ℚ) = (⌊x⌋ : ℚ) := by
  have hf0 : (0 : Int) ≤ ⌊x⌋ := Int.floor_nonneg.mpr h0
  have : ((⌊x⌋.toNat : Nat) : Int) = ⌊x⌋ := Int.toNat_of_nonneg hf0
  exact_mod_cast congrArg (fun z : Int => (z : ℚ)) this

end CamHelperOv64a40

end RPiController

namespace DelayScheduling

/-! ## Auxiliary facts about the scheduling -/

/-- Reaching a frame before the target of the last request leaves that request
pending and acts on the rest as if it had not been made. -/
theorem reach_write_before {α : Type} (s : FieldState α) (n d f : Nat) (v : α)
    (h : f < n + d) : reach (write s n d v) f = write (reach s f) n d v := by
  have h1 : ¬ (n + d ≤ f) := Nat.not_le.mpr h
  simp [reach, write, List.filter_append, List.filter_cons, h, h1]

/-- Reaching a frame at or after the target of the last request makes its
value the effective one. -/
theorem reach_write_due {α : Type} (s : FieldState α) (n d f : Nat) (v : α)
    (h : n + d ≤ f) : (reach (write s n d v) f).effective = v := by
  simp [reach, write, List.filter_append, List.filter_cons, h, List.foldl_append]

/-- Before its target frame a request commutes with the advance of frames. -/
theorem advance_write_before {α : Type} (s : FieldState α) (n d : Nat) (v : α) :
    ∀ k : Nat, k < d → advance (write s n d v) n k = write (advance s n k) n d v
  | 0, h => by
    simpa [advance] using reach_write_before s n d n v (by omega)
  | k + 1, h => by
    simp only [advance]
    rw [advance_write_before s n d v k (by omega)]
    exact reach_write_before _ n d _ v (by omega)

/-- With nothing pending, reaching frames changes nothing. -/
theorem advance_of_pending_nil {α : Type} (s : FieldState α) (n : Nat)
    (h : s.pending = []) : ∀ k : Nat, advance s n k = s
  | 0 => by
    cases s
    simp_all [advance, reach]
  | k + 1 => by
    simp only [advance]
    rw [advance_of_pending_nil s n h k]
    cases s
    simp_all [reach]

end DelayScheduling

namespace libcamera.ipa.rkisp1

/-! ## Auxiliary facts about the frame counter -/

/-- The prepare steps leave the counter alone. -/
theorem prepareAll_frameCount {σ : Type} (algos : List (Algorithm σ)) :
    ∀ s : IPAActiveState σ, (prepareAll algos s).frameCount = s.frameCount := by
  induction algos with
  | nil => intro s; rfl
  | cons a rest ih =>
    intro s
    have h := ih { s with algorithms := a.prepare s }
    simpa [prepareAll] using h

/-- A queued request adds one to the counter. -/
theorem queueRequest_frameCount {σ : Type} (algos : List (Algorithm σ))
    (s : IPAActiveState σ) : (queueRequest algos s).frameCount = s.frameCount + 1 := by
  simp [queueRequest, prepareAll_frameCount]

/-- After `n` queued requests the counter of a session is `n`. -/
theorem session_frameCount {σ : Type} (algos : List (Algorithm σ)) (defaults : σ) :
    ∀ n : Nat, (session algos defaults n).frameCount = n
  | 0 => rfl
  | n + 1 => by
    simp only [session]
    rw [queueRequest_frameCount, session_frameCount algos defaults n]

end libcamera.ipa.rkisp1

open RPiController RPiController.CamHelperOv64a40 DelayScheduling libcamera.ipa.rkisp1

/-- C1: getModeSensitivity returns exactly 4 for a mode with binX = 2 and
scaleX = 4, exactly 2 for a mode with binX = 2 and scaleX = 2, and exactly 1
for every mode with binX = 1, whatever its scaleX. -/
theorem getModeSensitivity_boundary_inputs (self : CamHelperOv64a40) (mode : CameraMode) :
    (mode.binX = 2 → mode.scaleX = 4 → getModeSensitivity self mode = 4) ∧
    (mode.binX = 2 → mode.scaleX = 2 → getModeSensitivity self mode = 2) ∧
    (mode.binX = 1 → getModeSensitivity self mode = 1) := by
  refine ⟨?_, ?_, ?_⟩
  · intro hb hs
    have h4 : mode.scaleX ≥ 4 := by rw [hs]; decide
    simp only [getModeSensitivity]
    rw [if_pos ⟨by omega, h4⟩]
  · intro hb hs
    have h4 : ¬ mode.scaleX ≥ 4 := by rw [hs]; decide
    have h2 : mode.scaleX ≥ 2 := by rw [hs]; decide
    simp only [getModeSensitivity]
    rw [if_neg (fun h => h4 h.2), if_pos ⟨by omega, h2⟩]
  · intro hb
    simp [getModeSensitivity, hb]

/-- Witness of C1 at the modes (binX, scaleX) = (2, 4), (2, 2) and (1, 8). -/
theorem getModeSensitivity_boundary_inputs_witness :
    getModeSensitivity (helperWithMode ⟨9248, 6944, 1, 1, 1, 1⟩) ⟨2312, 1736, 2, 2, 4, 4⟩ = 4 ∧
    getModeSensitivity (helperWithMode ⟨9248, 6944, 1, 1, 1, 1⟩) ⟨4624, 3472, 2, 2, 2, 2⟩ = 2 ∧
    getModeSensitivity (helperWithMode ⟨9248, 6944, 1, 1, 1, 1⟩) ⟨1156, 868, 1, 1, 8, 8⟩ = 1 :=
  ⟨(getModeSensitivity_boundary_inputs _ ⟨2312, 1736, 2, 2, 4, 4⟩).1 rfl rfl,
   (getModeSensitivity_boundary_inputs _ ⟨4624, 3472, 2, 2, 2, 2⟩).2.1 rfl rfl,
   (getModeSensitivity_boundary_inputs _ ⟨1156, 868, 1, 1, 8, 8⟩).2.2 rfl⟩

/-- C2 as stated fails: the unbinned mode with binX = 1 and scaleX = 4 has
scaleX at least 4, and getModeSensitivity returns 1 for it, not 4. -/
theorem getModeSensitivity_scale4_unbinned_counterexample :
    ¬ (∀ (self : CamHelperOv64a40) (mode : CameraMode),
        mode.scaleX ≥ 4 → getModeSensitivity self mode = 4) := by
  intro h
  have h4 := h (helperWithMode ⟨9248, 6944, 1, 1, 1, 1⟩) ⟨2312, 1736, 1, 1, 4, 4⟩ (by decide)
  revert h4
  decide

/-- C2 (amended): for every capture mode with binX at least 2 and scaleX at
least 4, getModeSensitivity returns 4. -/
theorem getModeSensitivity_scale4_binned (self : CamHelperOv64a40) (mode : CameraMode)
    (hb : mode.binX ≥ 2) (hs : mode.scaleX ≥ 4) : getModeSensitivity self mode = 4 := by
  simp only [getModeSensitivity]
  rw [if_pos ⟨hb, hs⟩]

/-- Witness of amended C2 at binX = 2, scaleX = 4. -/
theorem getModeSensitivity_scale4_binned_witness :
    getModeSensitivity (helperWithMode ⟨9248, 6944, 1, 1, 1, 1⟩) ⟨2312, 1736, 2, 2, 4, 4⟩ = 4 :=
  getModeSensitivity_scale4_binned _ ⟨2312, 1736, 2, 2, 4, 4⟩ (by decide) (by decide)

/-- C3: for every capture mode with binX at least 2 and scaleX in [2, 4),
getModeSensitivity returns 2; for the full-resolution mode (binX = 1,
scaleX = 1) it returns 1. -/
theorem getModeSensitivity_middle_step (self : CamHelperOv64a40) (mode : CameraMode) :
    (mode.binX ≥ 2 → 2 ≤ mode.scaleX → mode.scaleX < 4 → getModeSensitivity self mode = 2) ∧
    (mode.binX = 1 → mode.scaleX = 1 → getModeSensitivity self mode = 1) := by
  constructor
  · intro hb h2 h4
    simp only [getModeSensitivity]
    rw [if_neg (fun h => Double.not_le_of_lt_double h4 h.2), if_pos ⟨hb, h2⟩]
  · intro hb hs
    simp [getModeSensitivity, hb]

/-- Witness of C3 at (binX, scaleX) = (2, 3) and (1, 1). -/
theorem getModeSensitivity_middle_step_witness :
    getModeSensitivity (helperWithMode ⟨9248, 6944, 1, 1, 1, 1⟩) ⟨3082, 2314, 2, 2, 3, 3⟩ = 2 ∧
    getModeSensitivity (helperWithMode ⟨9248, 6944, 1, 1, 1, 1⟩) ⟨9248, 6944, 1, 1, 1, 1⟩ = 1 :=
  ⟨(getModeSensitivity_middle_step _ ⟨3082, 2314, 2, 2, 3, 3⟩).1
      (by decide) (by decide) (by decide),
   (getModeSensitivity_middle_step _ ⟨9248, 6944, 1, 1, 1, 1⟩).2 rfl rfl⟩

/-- C4: for every gain g with 0 ≤ g and 128 * g < 2 ^ 32 (in particular between
the minimum and maximum analogue gain), gainCode returns a code and gain of
that code recovers g within one code step: the distance is below 1 / 128. -/
theorem gain_gainCode_within_step (self : CamHelperOv64a40) (g : ℚ) (h0 : 0 ≤ g)
    (h1 : 128 * g < 2 ^ 32) :
    ∃ c : Nat, gainCode self g = some c ∧ |gain self c - g| < 1 / 128 := by
  refine ⟨⌊g * 128⌋.toNat, gainCode_eq_floor self g h0 h1, ?_⟩
  have hx : (0 : ℚ) ≤ g * 128 := by positivity
  have hlo := Int.floor_le (g * 128)
  have hhi := Int.lt_floor_add_one (g * 128)
  unfold gain
  rw [floor_toNat_cast _ hx, abs_lt]
  constructor
  · have : g - 1 / 128 < (⌊g * 128⌋ : ℚ) / 128 := by
      rw [lt_div_iff₀ (by norm_num)]
      linarith
    linarith
  · have : (⌊g * 128⌋ : ℚ) / 128 ≤ g := by
      rw [div_le_iff₀ (by norm_num)]
      exact hlo
    linarith

/-- Witness of C4 at g = 1001 / 1000, which encodes to code 128. -/
theorem gain_gainCode_within_step_witness :
    (0 : ℚ) ≤ 1001 / 1000 ∧ 128 * (1001 / 1000 : ℚ) < 2 ^ 32 ∧
    ∃ c : Nat, gainCode (helperWithMode ⟨9248, 6944, 1, 1, 1, 1⟩) (1001 / 1000) = some c ∧
      |gain (helperWithMode ⟨9248, 6944, 1, 1, 1, 1⟩) c - 1001 / 1000| < 1 / 128 :=
  ⟨by norm_num, by norm_num,
   gain_gainCode_within_step _ (1001 / 1000) (by norm_num) (by norm_num)⟩

/-- C5: gain is an exact inverse of gainCode on register codes: for every
32-bit unsigned code c, gainCode (gain c) is defined and equals c. -/
theorem gainCode_gain_roundtrip (self : CamHelperOv64a40) (c : Nat) (hc : c < 2 ^ 32) :
    gainCode self (gain self c) = some c := by
  have h0 : (0 : ℚ) ≤ gain self c := by
    unfold gain
    positivity
  have hmul : gain self c * 128 = (c : ℚ) := by
    unfold gain
    field_simp
  have h1 : 128 * gain self c < 2 ^ 32 := by
    rw [mul_comm, hmul]
    exact_mod_cast hc
  rw [gainCode_eq_floor self _ h0 h1, hmul]
  simp

/-- Witness of C5 at the code 192 (gain 1.5). -/
theorem gainCode_gain_roundtrip_witness :
    192 < 2 ^ 32 ∧
    gainCode (helperWithMode ⟨9248, 6944, 1, 1, 1, 1⟩) (gain (helperWithMode ⟨9248, 6944, 1, 1, 1, 1⟩) 192) = some 192 :=
  ⟨by decide, gainCode_gain_roundtrip _ 192 (by decide)⟩

/-- C6: gainCode is monotonic on the representable range: for gains
0 ≤ g1 ≤ g2 with 128 * g2 < 2 ^ 32 both codes are defined and that of g1 is at
most that of g2. -/
theorem gainCode_monotone (self : CamHelperOv64a40) (g1 g2 : ℚ) (h0 : 0 ≤ g1)
    (h12 : g1 ≤ g2) (h2 : 128 * g2 < 2 ^ 32) :
    ∃ c1 c2 : Nat, gainCode self g1 = some c1 ∧ gainCode self g2 = some c2 ∧ c1 ≤ c2 := by
  refine ⟨⌊g1 * 128⌋.toNat, ⌊g2 * 128⌋.toNat,
    gainCode_eq_floor self g1 h0 (by linarith),
    gainCode_eq_floor self g2 (le_trans h0 h12) h2, ?_⟩
  apply Int.toNat_le_toNat
  apply Int.floor_mono
  linarith

/-- Witness of C6 at g1 = 1, g2 = 3 / 2 (codes 128 and 192). -/
theorem gainCode_monotone_witness :
    (0 : ℚ) ≤ 1 ∧ (1 : ℚ) ≤ 3 / 2 ∧ 128 * (3 / 2 : ℚ) < 2 ^ 32 ∧
    ∃ c1 c2 : Nat, gainCode (helperWithMode ⟨9248, 6944, 1, 1, 1, 1⟩) 1 = some c1 ∧
      gainCode (helperWithMode ⟨9248, 6944, 1, 1, 1, 1⟩) (3 / 2) = some c2 ∧ c1 ≤ c2 :=
  ⟨by norm_num, by norm_num, by norm_num,
   gainCode_monotone _ 1 (3 / 2) (by norm_num) (by norm_num) (by norm_num)⟩

/-- C7: getDelays reports exactly exposureDelay = 2, gainDelay = 2,
vblankDelay = 2 and hblankDelay = 2, overwriting all four output variables
whatever values they held before the call. -/
theorem getDelays_all_two (self : CamHelperOv64a40) (v : DelayVars) :
    getDelays self v =
      { exposureDelay := 2, gainDelay := 2, vblankDelay := 2, hblankDelay := 2 } := by
  rfl

/-- C8: for every capture mode, getModeSensitivity returns a value greater
than or equal to 1. -/
theorem getModeSensitivity_ge_one (self : CamHelperOv64a40) (mode : CameraMode) :
    getModeSensitivity self mode ≥ 1 := by
  unfold getModeSensitivity
  split_ifs <;> norm_num

/-- C9: the delays reported by getDelays are each non-negative and constant:
two calls, on helpers with any active capture modes and with any prior
contents of the four output variables, produce the same four values. -/
theorem getDelays_constant_nonneg (self1 self2 : CamHelperOv64a40) (v1 v2 : DelayVars) :
    getDelays self1 v1 = getDelays self2 v2 ∧
    0 ≤ (getDelays self1 v1).exposureDelay ∧ 0 ≤ (getDelays self1 v1).gainDelay ∧
    0 ≤ (getDelays self1 v1).vblankDelay ∧ 0 ≤ (getDelays self1 v1).hblankDelay := by
  refine ⟨rfl, ?_, ?_, ?_, ?_⟩ <;> simp [getDelays]

/-- C10: a control value written while processing frame N for a field with
declared delay D is the effective value at frame N + D, and at every frame
N + k with k < D the effective value is what it is without the write; with the
exposure delay reported by getDelays (2) and nothing else pending, an exposure
requested at frame 10 leaves the effective exposure unchanged at frames 10 and
11 and is the effective exposure at frame 12. -/
theorem delayed_write_effective_at_target {α : Type} (s : FieldState α) (N D : Nat) (v : α)
    (self : CamHelperOv64a40) (vars : DelayVars) :
    (∀ k : Nat, k < D → effectiveAt (write s N D v) N k = effectiveAt s N k) ∧
    effectiveAt (write s N D v) N D = v ∧
    (s.pending = [] →
      effectiveAt (write s 10 (getDelays self vars).exposureDelay.toNat v) 10 0 = s.effective ∧
      effectiveAt (write s 10 (getDelays self vars).exposureDelay.toNat v) 10 1 = s.effective ∧
      effectiveAt (write s 10 (getDelays self vars).exposureDelay.toNat v) 10 2 = v) := by
  have before : ∀ (n d k : Nat), k < d →
      effectiveAt (write s n d v) n k = effectiveAt s n k := by
    intro n d k hk
    unfold effectiveAt
    rw [advance_write_before s n d v k hk]
    rfl
  have target : ∀ (n d : Nat), effectiveAt (write s n d v) n d = v := by
    intro n d
    unfold effectiveAt
    cases d with
    | zero => exact reach_write_due s n 0 n v (by omega)
    | succ j =>
      simp only [advance]
      rw [advance_write_before s n (j + 1) v j (by omega)]
      exact reach_write_due _ n (j + 1) _ v (by omega)
  refine ⟨before N D, target N D, ?_⟩
  intro hp
  have hD : (getDelays self vars).exposureDelay.toNat = 2 := rfl
  rw [hD]
  refine ⟨?_, ?_, target 10 2⟩
  · rw [before 10 2 0 (by omega)]
    unfold effectiveAt
    rw [advance_of_pending_nil s 10 hp 0]
  · rw [before 10 2 1 (by omega)]
    unfold effectiveAt
    rw [advance_of_pending_nil s 10 hp 1]

/-- Witness of C10: effective exposure 100, nothing pending, exposure 200
requested at frame 10 with delay 2: still 100 at frames 10 and 11, 200 at
frame 12. -/
theorem delayed_write_effective_at_target_witness :
    (1 < 2 ∧
      effectiveAt (write (⟨100, []⟩ : FieldState Nat) 10 2 200) 10 1 =
        effectiveAt (⟨100, []⟩ : FieldState Nat) 10 1) ∧
    effectiveAt (write (⟨100, []⟩ : FieldState Nat) 10 2 200) 10 2 = 200 ∧
    ((⟨100, []⟩ : FieldState Nat).pending = [] ∧
      effectiveAt (write (⟨100, []⟩ : FieldState Nat) 10
        (getDelays (helperWithMode ⟨9248, 6944, 1, 1, 1, 1⟩) ⟨0, 0, 0, 0⟩).exposureDelay.toNat 200) 10 0 = 100 ∧
      effectiveAt (write (⟨100, []⟩ : FieldState Nat) 10
        (getDelays (helperWithMode ⟨9248, 6944, 1, 1, 1, 1⟩) ⟨0, 0, 0, 0⟩).exposureDelay.toNat 200) 10 1 = 100 ∧
      effectiveAt (write (⟨100, []⟩ : FieldState Nat) 10
        (getDelays (helperWithMode ⟨9248, 6944, 1, 1, 1, 1⟩) ⟨0, 0, 0, 0⟩).exposureDelay.toNat 200) 10 2 = 200) :=
  ⟨⟨by decide,
    (delayed_write_effective_at_target (⟨100, []⟩ : FieldState Nat) 10 2 200
      (helperWithMode ⟨9248, 6944, 1, 1, 1, 1⟩) ⟨0, 0, 0, 0⟩).1 1 (by decide)⟩,
   (delayed_write_effective_at_target (⟨100, []⟩ : FieldState Nat) 10 2 200
      (helperWithMode ⟨9248, 6944, 1, 1, 1, 1⟩) ⟨0, 0, 0, 0⟩).2.1,
   rfl,
   (delayed_write_effective_at_target (⟨100, []⟩ : FieldState Nat) 10 2 200
      (helperWithMode ⟨9248, 6944, 1, 1, 1, 1⟩) ⟨0, 0, 0, 0⟩).2.2 rfl⟩

/-- C11: frameCount is 0 when the IPA module is configured; the prepare step of
all algorithms leaves it as it is and the queued request then increases it by
exactly 1; so after n queued requests of a session it is n, and it never
decreases or skips a value during the session. -/
theorem frameCount_counts_queued_requests {σ : Type} (algos : List (Algorithm σ))
    (defaults : σ) (s : IPAActiveState σ) (n i j : Nat) :
    (configure defaults).frameCount = 0 ∧
    (prepareAll algos s).frameCount = s.frameCount ∧
    (queueRequest algos s).frameCount = (prepareAll algos s).frameCount + 1 ∧
    (queueRequest algos s).algorithms = (prepareAll algos s).algorithms ∧
    (session algos defaults n).frameCount = n ∧
    (session algos defaults (n + 1)).frameCount = (session algos defaults n).frameCount + 1 ∧
    (i ≤ j → (session algos defaults i).frameCount ≤ (session algos defaults j).frameCount) := by
  refine ⟨rfl, prepareAll_frameCount algos s, rfl, rfl, session_frameCount algos defaults n,
    ?_, ?_⟩
  · rw [session_frameCount, session_frameCount]
  · intro hij
    rw [session_frameCount, session_frameCount]
    exact hij

/-- Witness of C11: one algorithm that copies the counter into its sub-record;
after 2 and after 3 queued requests the counter is 2 and 3, and the prepare step
of the third request has seen the counter at 2. -/
theorem frameCount_counts_queued_requests_witness :
    2 ≤ 3 ∧
    (session [(⟨fun st => st.frameCount⟩ : Algorithm Nat)] 0 2).frameCount ≤
      (session [(⟨fun st => st.frameCount⟩ : Algorithm Nat)] 0 3).frameCount ∧
    (session [(⟨fun st => st.frameCount⟩ : Algorithm Nat)] 0 3).frameCount = 3 ∧
    (session [(⟨fun st => st.frameCount⟩ : Algorithm Nat)] 0 3).algorithms = 2 :=
  ⟨by decide,
   (frameCount_counts_queued_requests [(⟨fun st => st.frameCount⟩ : Algorithm Nat)] 0
      (configure 0) 3 2 3).2.2.2.2.2.2 (by decide),
   (frameCount_counts_queued_requests [(⟨fun st => st.frameCount⟩ : Algorithm Nat)] 0
      (configure 0) 3 2 3).2.2.2.2.1,
   rfl⟩

/-- C12 as stated fails: for the mode with binX = 2 and scaleX = NaN both
guards are false and getModeSensitivity returns 1, while neither binX < 2 nor
scaleX < 2 holds. -/
theorem getModeSensitivity_one_iff_nan_counterexample :
    ¬ (getModeSensitivity (helperWithMode ⟨9248, 6944, 1, 1, 1, 1⟩)
          ⟨4624, 3472, 2, 2, Double.nan, Double.nan⟩ = 1 ↔
        (⟨4624, 3472, 2, 2, Double.nan, Double.nan⟩ : CameraMode).binX < 2 ∨
        (⟨4624, 3472, 2, 2, Double.nan, Double.nan⟩ : CameraMode).scaleX < 2) := by
  intro h
  have h1 : getModeSensitivity (helperWithMode ⟨9248, 6944, 1, 1, 1, 1⟩)
      ⟨4624, 3472, 2, 2, Double.nan, Double.nan⟩ = 1 := by decide
  have h2 := h.mp h1
  revert h2
  decide

/-- C12 (amended): getModeSensitivity returns 1 if and only if binX < 2 or
scaleX < 2 or scaleX is NaN; in particular every unbinned mode (binX = 1)
yields 1, also when scaleX is at least 4, and the thresholds binX = 2,
scaleX = 2 and scaleX = 4 are inclusive: (2, 2) yields 2 and (2, 4) yields 4. -/
theorem getModeSensitivity_one_iff (self : CamHelperOv64a40) (mode : CameraMode) :
    (getModeSensitivity self mode = 1 ↔
      mode.binX < 2 ∨ mode.scaleX < 2 ∨ mode.scaleX = Double.nan) ∧
    (mode.binX = 1 → mode.scaleX ≥ 4 → getModeSensitivity self mode = 1) ∧
    (mode.binX = 2 → mode.scaleX = 2 → getModeSensitivity self mode = 2) ∧
    (mode.binX = 2 → mode.scaleX = 4 → getModeSensitivity self mode = 4) := by
  refine ⟨?_, ?_, ?_, ?_⟩
  · unfold getModeSensitivity
    split_ifs with h4 h2
    · have hge : (2 : Double) ≤ mode.scaleX := Double.two_le_of_four_le h4.2
      constructor
      · intro h
        norm_num at h
      · rintro (hb | hs)
        · omega
        · exact absurd hge ((Double.not_two_le_iff _).mpr hs)
    · constructor
      · intro h
        norm_num at h
      · rintro (hb | hs)
        · omega
        · exact absurd h2.2 ((Double.not_two_le_iff _).mpr hs)
    · constructor
      · intro _
        by_cases hb : mode.binX < 2
        · exact Or.inl hb
        · refine Or.inr ((Double.not_two_le_iff _).mp ?_)
          intro hge
          exact h2 ⟨by omega, hge⟩
      · intro _
        rfl
  · intro hb _
    simp [getModeSensitivity, hb]
  · intro hb hs
    have h4 : ¬ mode.scaleX ≥ 4 := by rw [hs]; decide
    have h2 : mode.scaleX ≥ 2 := by rw [hs]; decide
    simp only [getModeSensitivity]
    rw [if_neg (fun h => h4 h.2), if_pos ⟨by omega, h2⟩]
  · intro hb hs
    have h4 : mode.scaleX ≥ 4 := by rw [hs]; decide
    simp only [getModeSensitivity]
    rw [if_pos ⟨by omega, h4⟩]

/-- Witness of amended C12: the unbinned mode with scaleX = 8 yields 1, the
modes (2, 2) and (2, 4) yield 2 and 4, and the mode with binX = 2 and
scaleX = NaN yields 1. -/
theorem getModeSensitivity_one_iff_witness :
    getModeSensitivity (helperWithMode ⟨9248, 6944, 1, 1, 1, 1⟩) ⟨1156, 868, 1, 1, 8, 8⟩ = 1 ∧
    getModeSensitivity (helperWithMode ⟨9248, 6944, 1, 1, 1, 1⟩) ⟨4624, 3472, 2, 2, 2, 2⟩ = 2 ∧
    getModeSensitivity (helperWithMode ⟨9248, 6944, 1, 1, 1, 1⟩) ⟨2312, 1736, 2, 2, 4, 4⟩ = 4 ∧
    getModeSensitivity (helperWithMode ⟨9248, 6944, 1, 1, 1, 1⟩)
      ⟨4624, 3472, 2, 2, Double.nan, Double.nan⟩ = 1 :=
  ⟨(getModeSensitivity_one_iff _ ⟨1156, 868, 1, 1, 8, 8⟩).2.1 rfl (by decide),
   (getModeSensitivity_one_iff _ ⟨4624, 3472, 2, 2, 2, 2⟩).2.2.1 rfl rfl,
   (getModeSensitivity_one_iff _ ⟨2312, 1736, 2, 2, 4, 4⟩).2.2.2 rfl rfl,
   (getModeSensitivity_one_iff _ ⟨4624, 3472, 2, 2, Double.nan, Double.nan⟩).1.mpr
     (Or.inr (Or.inr rfl))⟩

/-- C13: for every gain g with 0 ≤ g and 128 * g < 2 ^ 32, gainCode returns
the floor of 128 * g, a value inside the unsigned 32-bit range; for every code
c, gain returns c / 128; unity gain encodes to code 128. -/
theorem gainCode_floor_gain_div (self : CamHelperOv64a40) (g : ℚ) (c : Nat) :
    (0 ≤ g → 128 * g < 2 ^ 32 →
      ∃ k : Nat, gainCode self g = some k ∧ (k : Int) = ⌊128 * g⌋ ∧ k < 2 ^ 32) ∧
    gain self c = (c : ℚ) / 128 ∧
    gainCode self 1 = some 128 := by
  refine ⟨?_, rfl, ?_⟩
  · intro h0 h1
    have hx : (0 : ℚ) ≤ g * 128 := by positivity
    have hf0 : (0 : Int) ≤ ⌊g * 128⌋ := Int.floor_nonneg.mpr hx
    have hk : ((⌊g * 128⌋.toNat : Nat) : Int) = ⌊g * 128⌋ := Int.toNat_of_nonneg hf0
    refine ⟨⌊g * 128⌋.toNat, gainCode_eq_floor self g h0 h1, ?_, ?_⟩
    · rw [hk, mul_comm]
    · have hlt : ⌊g * 128⌋ < (2 : Int) ^ 32 := by
        have : ((⌊g * 128⌋ : Int) : ℚ) < ((2 ^ 32 : Int) : ℚ) := by
          have := Int.floor_le (g * 128)
          push_cast
          linarith
        exact_mod_cast this
      omega
  · rw [gainCode_eq_floor self 1 (by norm_num) (by norm_num)]
    have h128 : ⌊(1 : ℚ) * 128⌋ = 128 := by
      rw [one_mul]
      exact Int.floor_intCast (128 : Int)
    rw [h128]
    rfl

/-- Witness of C13 at g = 3 / 2, whose code is 192. -/
theorem gainCode_floor_gain_div_witness :
    (0 : ℚ) ≤ 3 / 2 ∧ 128 * (3 / 2 : ℚ) < 2 ^ 32 ∧
    ∃ k : Nat, gainCode (helperWithMode ⟨9248, 6944, 1, 1, 1, 1⟩) (3 / 2) = some k ∧
      (k : Int) = ⌊128 * (3 / 2 : ℚ)⌋ ∧ k < 2 ^ 32 :=
  ⟨by norm_num, by norm_num,
   (gainCode_floor_gain_div (helperWithMode ⟨9248, 6944, 1, 1, 1, 1⟩) (3 / 2) 0).1
     (by norm_num) (by norm_num)⟩

/-- C14: encoding never over-requests gain: for every g with 0 ≤ g and
128 * g < 2 ^ 32 the code is defined and gain of it is at most g, with
equality if and only if 128 * g is an integer. -/
theorem gain_gainCode_le (self : CamHelperOv64a40) (g : ℚ) (h0 : 0 ≤ g)
    (h1 : 128 * g < 2 ^ 32) :
    ∃ c : Nat, gainCode self g = some c ∧ gain self c ≤ g ∧
      (gain self c = g ↔ ∃ n : Int, 128 * g = (n : ℚ)) := by
  have hx : (0 : ℚ) ≤ g * 128 := by positivity
  have hlo := Int.floor_le (g * 128)
  refine ⟨⌊g * 128⌋.toNat, gainCode_eq_floor self g h0 h1, ?_, ?_⟩
  · unfold gain
    rw [floor_toNat_cast _ hx, div_le_iff₀ (by norm_num)]
    exact hlo
  · unfold gain
    rw [floor_toNat_cast _ hx]
    constructor
    · intro h
      refine ⟨⌊g * 128⌋, ?_⟩
      rw [div_eq_iff (by norm_num)] at h
      linarith
    · rintro ⟨n, hn⟩
      have hfl : ⌊g * 128⌋ = n := by
        rw [mul_comm, hn]
        exact Int.floor_intCast n
      rw [hfl, div_eq_iff (by norm_num)]
      linarith

/-- Witness of C14 at g = 1001 / 1000: the code is 128 and gain gives back 1,
below g. -/
theorem gain_gainCode_le_witness :
    (0 : ℚ) ≤ 1001 / 1000 ∧ 128 * (1001 / 1000 : ℚ) < 2 ^ 32 ∧
    ∃ c : Nat, gainCode (helperWithMode ⟨9248, 6944, 1, 1, 1, 1⟩) (1001 / 1000) = some c ∧
      gain (helperWithMode ⟨9248, 6944, 1, 1, 1, 1⟩) c ≤ 1001 / 1000 ∧
      (gain (helperWithMode ⟨9248, 6944, 1, 1, 1, 1⟩) c = 1001 / 1000 ↔
        ∃ n : Int, 128 * (1001 / 1000 : ℚ) = (n : ℚ)) :=
  ⟨by norm_num, by norm_num,
   gain_gainCode_le _ (1001 / 1000) (by norm_num) (by norm_num)⟩

/-- C15: getModeSensitivity is monotone in the horizontal binning and scale:
for modes m1, m2 with m1.binX ≤ m2.binX and m1.scaleX ≤ m2.scaleX the
sensitivity of m1 is at most that of m2. -/
theorem getModeSensitivity_monotone (self : CamHelperOv64a40) (m1 m2 : CameraMode)
    (hb : m1.binX ≤ m2.binX) (hs : m1.scaleX ≤ m2.scaleX) :
    getModeSensitivity self m1 ≤ getModeSensitivity self m2 := by
  unfold getModeSensitivity
  split_ifs with a4 b4 b2 a2 c4 c2 d4 d2
  · exact le_refl _
  · exact absurd ⟨le_trans a4.1 hb, Double.le_trans_double a4.2 hs⟩ b4
  · exact absurd ⟨le_trans a4.1 hb,
      Double.le_trans_double (Double.two_le_of_four_le a4.2) hs⟩ b2
  · norm_num
  · exact le_refl _
  · exact absurd ⟨le_trans a2.1 hb, Double.le_trans_double a2.2 hs⟩ c2
  · norm_num
  · norm_num
  · exact le_refl _

/-- Witness of C15 at the modes (2, 2) and (2, 4). -/
theorem getModeSensitivity_monotone_witness :
    getModeSensitivity (helperWithMode ⟨9248, 6944, 1, 1, 1, 1⟩) ⟨4624, 3472, 2, 2, 2, 2⟩ ≤
      getModeSensitivity (helperWithMode ⟨9248, 6944, 1, 1, 1, 1⟩) ⟨2312, 1736, 2, 2, 4, 4⟩ :=
  getModeSensitivity_monotone _ ⟨4624, 3472, 2, 2, 2, 2⟩ ⟨2312, 1736, 2, 2, 4, 4⟩
    (by decide) (by decide)

/-- C16: getModeSensitivity depends only on the horizontal factors: two capture
modes that agree on binX and scaleX get the same sensitivity, whatever their
vertical binning and scale, their resolution and the helper they are passed
to. -/
theorem getModeSensitivity_horizontal_only (self1 self2 : CamHelperOv64a40)
    (m1 m2 : CameraMode) (hb : m1.binX = m2.binX) (hs : m1.scaleX = m2.scaleX) :
    getModeSensitivity self1 m1 = getModeSensitivity self2 m2 := by
  unfold getModeSensitivity
  rw [hb, hs]

/-- Witness of C16: two modes with binX = 2 and scaleX = 2 that differ in
resolution, vertical binning and vertical scale. -/
theorem getModeSensitivity_horizontal_only_witness :
    getModeSensitivity (helperWithMode ⟨9248, 6944, 1, 1, 1, 1⟩) ⟨4624, 3472, 2, 2, 2, 2⟩ =
      getModeSensitivity (helperWithMode ⟨4624, 3472, 2, 2, 2, 2⟩) ⟨4624, 1736, 2, 4, 2, 4⟩ :=
  getModeSensitivity_horizontal_only _ _ ⟨4624, 3472, 2, 2, 2, 2⟩ ⟨4624, 1736, 2, 4, 2, 4⟩
    rfl rfl
